import Mathlib

/-!
Verification development for `SimpleFactory.py` (usnistgov/SimpleFactory).

The definitions below are a shallow embedding of the program.  Pure Python
functions become Lean functions; stateful objects become explicit state
records with transition functions; code that can raise returns `Except`;
machine numbers are embedded as `Nat`/`Int` (the program's float values,
such as `time.clock()` readings, are embedded as integers: none of the
verified properties depends on the fractional part).  The behaviour of the
external libraries the program drives (`simpy` containers, Python's
exception dispatch for `socket.error`/`socket.timeout`) is embedded from
those libraries' documented semantics, recorded in the doc comments.
-/

/-! ## Decimal rendering of integers (Python `str(int)` / `json.dumps` numbers)

Fuel-structural so that every definition evaluates by kernel reduction.
-/

/-- The character for a decimal digit `d < 10` (code point `48 + d`). -/
def digitChar (d : Nat) : Char := Char.ofNat (48 + d)

/-- Decimal digits of `n`, most significant first.  The fuel argument is
only a structural-termination device; `fuel > n` suffices. -/
def renderNatAux : Nat → Nat → List Char
  | 0, _ => []
  | fuel + 1, n =>
    if n < 10 then [digitChar n]
    else renderNatAux fuel (n / 10) ++ [digitChar (n % 10)]

/-- Decimal rendering of a natural number, as Python's `str` produces it. -/
def renderNatChars (n : Nat) : List Char := renderNatAux (n + 1) n

/-- Decimal rendering as a `String`. -/
def renderNat (n : Nat) : String := String.mk (renderNatChars n)

/-- Decimal rendering of an integer, as Python's `str`/`json.dumps`
produce it: a minus sign followed by the digits when negative. -/
def renderIntChars (i : Int) : List Char :=
  if i < 0 then '-' :: renderNatChars (-i).toNat else renderNatChars i.toNat

/-! ## SensorMessage (SimpleFactory.py lines 32-49) -/

/-- The two clocks visible to the program: `time.clock()` (the host's
processor/wall clock) and `env.now` (the simulation's virtual time). -/
structure Clocks where
  timeClock : Int
  envNow : Int
  deriving DecidableEq

/-- A `SensorMessage` object (lines 32-38). -/
structure SensorMessage where
  t : Int
  mach_id : Int
  rail_id : Int
  part_id : Int
  msg_str : String
  deriving DecidableEq

/-- `SensorMessage.__init__` (lines 33-38): the timestamp field `t` is set
to `time.clock()` — the host clock — not to the simulation clock
`env.now` (the environment is not even passed to the constructor). -/
def SensorMessage.init (clk : Clocks) (part_id mach_id rail_id : Int)
    (msg_str : String) : SensorMessage :=
  { t := clk.timeClock, mach_id := mach_id, rail_id := rail_id,
    part_id := part_id, msg_str := msg_str }

/-- JSON string escaping as Python's `json.dumps` performs it on strings
of printable ASCII: backslash and double quote are escaped, every other
character passes through.  (On characters outside 0x20-0x7E `json.dumps`
would instead emit `\uXXXX` escapes; the round-trip theorem below is
stated on the printable-ASCII domain.) -/
def escapeChars : List Char → List Char
  | [] => []
  | c :: cs =>
    if c = '\\' then '\\' :: '\\' :: escapeChars cs
    else if c = '"' then '\\' :: '"' :: escapeChars cs
    else c :: escapeChars cs

/-- A JSON string literal: opening quote, escaped body, closing quote. -/
def jstringChars (s : String) : List Char := '"' :: (escapeChars s.data ++ ['"'])

/-- The opening of the JSON object up to the `time` value. -/
def litTime : List Char := "\x7b\"time\": ".data

/-- The separator before the `machine` value. -/
def litMachine : List Char := ", \"machine\": ".data

/-- The separator before the `rail` value. -/
def litRail : List Char := ", \"rail\": ".data

/-- The separator before the `part` value. -/
def litPart : List Char := ", \"part\": ".data

/-- The separator before the `msg` value. -/
def litMsg : List Char := ", \"msg\": ".data

/-- The closing brace of the JSON object and the line's newline. -/
def litEnd : List Char := ['\x7d', '\n']

/-- The characters of `json.dumps` applied to the dict built in
`SensorMessage.to_str` (lines 40-49): keys in insertion order
`time, machine, rail, part, msg`, with `json.dumps`'s default
separators `", "` and `": "`. -/
def jsonChars (m : SensorMessage) : List Char :=
  litTime ++
    (renderIntChars m.t ++
      (litMachine ++
        (renderIntChars m.mach_id ++
          (litRail ++
            (renderIntChars m.rail_id ++
              (litPart ++
                (renderIntChars m.part_id ++
                  (litMsg ++
                    (jstringChars m.msg_str ++ ['\x7d'])))))))))

/-- `SensorMessage.to_str` (lines 40-49). -/
def SensorMessage.to_str (m : SensorMessage) : String := String.mk (jsonChars m)

/-! ## SensorTCPProxy (SimpleFactory.py lines 51-114) -/

/-- A local or remote socket address `(host, port)`. -/
abbrev Addr := String × Nat

/-- The exceptions `socket.sendall` can raise in this program. -/
inductive SockExn
  | sockError
  | sockTimeout
  deriving DecidableEq

/-- Python exception dispatch for an `except socket.error` clause:
`socket.error` is an alias of `OSError` and `socket.timeout` is a
subclass of `OSError`, so the clause catches both exceptions. -/
def matchesSocketError : SockExn → Bool
  | .sockError => true
  | .sockTimeout => true

/-- Python exception dispatch for an `except socket.timeout` clause. -/
def matchesSocketTimeout : SockExn → Bool
  | .sockError => false
  | .sockTimeout => true

/-- State of a `SensorTCPProxy` (lines 51-114).  `connGen` counts how many
times `connect` has executed; it identifies the current connection
instance (1 right after `__init__`, which calls `connect` once). -/
structure SensorTCPProxy where
  seqnum : Nat
  remote_addr : Addr
  bind_addr : Addr
  connGen : Nat
  deriving DecidableEq

/-- `SensorTCPProxy.__init__` (lines 58-68): raises `NoBindAddress` when no
bind address is supplied; otherwise stores the addresses, sets
`seqnum = 0` and connects once. -/
def SensorTCPProxy.init (remote_addr : Addr) (bind_addr : Option Addr) :
    Except String SensorTCPProxy :=
  match bind_addr with
  | none => .error "NoBindAddress"
  | some a =>
    .ok { seqnum := 0, remote_addr := remote_addr, bind_addr := a, connGen := 1 }

/-- `SensorTCPProxy.connect` (lines 77-87): opens a fresh socket, binds it
to `self.bind_addr` — the address stored at construction, unchanged — and
connects it to `self.remote_addr`.  It touches neither `seqnum` nor the
two stored addresses. -/
def SensorTCPProxy.connect (p : SensorTCPProxy) : SensorTCPProxy :=
  { p with connGen := p.connGen + 1 }

/-- `SensorTCPProxy.send` (lines 94-109).  `self.seqnum += 1` runs first,
then `data = str(self.seqnum) + "\t" + payload` is written with
`sendall(bytes(data + "\n"))`.  `exn` is the exception `sendall` raises,
if any.  The `except` clauses are tried in source order:
`except socket.error` (close the socket and reconnect) comes before
`except socket.timeout` (log only), and `matchesSocketError` is true for
both exceptions, so the timeout clause is unreachable.  The result is the
new proxy state together with the record `(seqnum, payload)` actually
written, when the write succeeded. -/
def SensorTCPProxy.send (p : SensorTCPProxy) (payload : String)
    (exn : Option SockExn) : SensorTCPProxy × Option (Nat × String) :=
  let p1 : SensorTCPProxy := { p with seqnum := p.seqnum + 1 }
  match exn with
  | none => (p1, some (p1.seqnum, payload))
  | some e =>
    if matchesSocketError e then (p1.connect, none)
    else if matchesSocketTimeout e then (p1, none)
    else (p1, none)

/-- `SensorTCPProxy.send_msg` (lines 89-91): serialize and send. -/
def SensorTCPProxy.send_msg (p : SensorTCPProxy) (m : SensorMessage)
    (exn : Option SockExn) : SensorTCPProxy × Option (Nat × String) :=
  p.send m.to_str exn

/-- The bytes `send` writes for a record `(seqnum, payload)`:
`str(seqnum) + "\t" + payload + "\n"` (lines 97-99). -/
def wireBytes (r : Nat × String) : String :=
  String.mk (renderNatChars r.1) ++ "\t" ++ r.2 ++ "\n"

/-- A sequence of `send` calls: each list entry is the payload together
with the exception `sendall` raised for it, if any.  Returns the final
proxy state and the records that were actually written. -/
def SensorTCPProxy.sendAll (p : SensorTCPProxy) :
    List (String × Option SockExn) → SensorTCPProxy × List (Nat × String)
  | [] => (p, [])
  | c :: rest =>
    let step := p.send c.1 c.2
    let tail := step.1.sendAll rest
    (tail.1, step.2.toList ++ tail.2)

/-- Modelled from the spec: module `addrlist` (imported as `al`) is not
among the repository sources.  Spec section 4.4: the pool `pop()` removes
and returns one local bind address and fails when the pool is empty; no
return-to-pool operation exists. -/
def pop_addr : List Addr → Except String (Addr × List Addr)
  | [] => .error "no available bind address"
  | a :: rest => .ok (a, rest)

/-! ## The simpy output store (`simpy.resources.container.Container`)

`Factory.setup` (line 216) creates the output store as a simpy
`Container`; `Part` (line 183) calls `output_store.put(1)` on it.  The
embedding below follows simpy's `Container`/`ContainerPut` semantics:
a put request whose amount is not positive raises `ValueError`; otherwise
the request joins the put queue, and queued requests are granted in FIFO
order while `capacity - level >= amount`, the first request that does not
fit (and everything behind it) waiting silently.  A put never raises an
overflow error.
-/

/-- Output store state: capacity, current level, pending put amounts. -/
structure Container where
  capacity : Nat
  level : Nat
  put_queue : List Nat
  deriving DecidableEq

/-- simpy `Container._trigger_put`: grant queued put requests in FIFO
order while they fit, stopping at the first that does not. -/
def triggerPut (capacity : Nat) : Nat → List Nat → Nat × List Nat
  | level, [] => (level, [])
  | level, a :: rest =>
    if a ≤ capacity - level then triggerPut capacity (level + a) rest
    else (level, a :: rest)

/-- simpy `Container.put(amount)`: `ValueError` when the amount is not
positive; otherwise queue the request and trigger the queue.  A request
that does not fit waits silently — there is no overflow error. -/
def Container.put (c : Container) (amount : Nat) : Except String Container :=
  if amount = 0 then .error "ValueError: amount must be greater than 0"
  else
    let r := triggerPut c.capacity c.level (c.put_queue ++ [amount])
    .ok { capacity := c.capacity, level := r.1, put_queue := r.2 }

/-! ## The Part process (SimpleFactory.py lines 166-186)

`Part` is a generator: for each machine it enters the station `with`
block, works, and — still inside the station block — enters the rail
`with` block and travels; both `with` blocks release on exit, inner
first.  `partTrace` lists the actions of one part in program order; `ms`
is the list of machine ids the part visits.
-/

/-- One action of a `Part` process. -/
inductive PartEvent
  | requestStation (m : Nat)
  | acquireStation (m : Nat)
  | enterMachine (m : Nat)
  | startWork (m : Nat)
  | exitMachine (m : Nat)
  | requestRail (m : Nat)
  | acquireRail (m : Nat)
  | startTransit (m : Nat)
  | releaseRail (m : Nat)
  | releaseStation (m : Nat)
  | storeProduct
  | logDiagnostics
  deriving DecidableEq

/-- The actions of one loop iteration of `Part` (lines 170-179), in
program order.  The station slot is released by the `with` block exit at
the END of the iteration, after the rail `with` block has released the
rail — the rail request and the whole transit happen while the station
slot is still held. -/
def visitEvents (m : Nat) : List PartEvent :=
  [.requestStation m, .acquireStation m, .enterMachine m, .startWork m,
   .exitMachine m, .requestRail m, .acquireRail m, .startTransit m,
   .releaseRail m, .releaseStation m]

/-- The `for mach in machines` loop of `Part`. -/
def loopTrace : List Nat → List PartEvent
  | [] => []
  | m :: rest => visitEvents m ++ loopTrace rest

/-- The full action trace of one `Part` process (lines 170-186): the
machine loop, then the store and the final diagnostic log entry. -/
def partTrace (ms : List Nat) : List PartEvent :=
  loopTrace ms ++ [.storeProduct, .logDiagnostics]

/-- Effect of one part action on the multiset of station slots the part
holds (identified by machine id). -/
def stationStep (held : List Nat) : PartEvent → List Nat
  | .acquireStation m => m :: held
  | .releaseStation m => held.erase m
  | _ => held

/-- The station slots held after executing a trace prefix. -/
def stationsHeld (tr : List PartEvent) : List Nat := tr.foldl stationStep []

/-! ## Telemetry vs log emissions of a Part (for the diagnostic record)

Each loop iteration of `Part` emits, in program order: the
`part entered machine` log line and telemetry record (lines 146-148), the
`machine working` telemetry record and log line (lines 153-160), the
`part exits machine` log line (line 175), the `part in transit` log line
(line 178) and telemetry record (lines 128-129).  After the loop the part
emits only log lines: `part stored as product` (line 182) and the
products diagnostic (line 186) — the diagnostic goes through
`sfutils.loginfo`, not through any tcp client.
-/

/-- Which output stream an emission goes to: the telemetry socket
(`tcpclient.send_msg`) or the log file (`sfutils.loginfo`). -/
inductive OutChannel
  | telemetry
  | log
  deriving DecidableEq

/-- One emission: its stream and its message text. -/
structure Emission where
  channel : OutChannel
  msg : String
  deriving DecidableEq

/-- Emissions of one loop iteration of `Part`, in program order. -/
def visitEmissions : List Emission :=
  [⟨.log, "part entered machine"⟩, ⟨.telemetry, "part entered machine"⟩,
   ⟨.telemetry, "machine working"⟩, ⟨.log, "machine working"⟩,
   ⟨.log, "part exits machine"⟩,
   ⟨.log, "part in transit"⟩, ⟨.telemetry, "part in transit"⟩]

/-- Emissions of the machine loop for `n` machines. -/
def loopEmissions : Nat → List Emission
  | 0 => []
  | n + 1 => visitEmissions ++ loopEmissions n

/-- All emissions of one `Part` process, `level` being the value of
`output_store.level` read on line 186. -/
def partEmissions (numMachines level : Nat) : List Emission :=
  loopEmissions numMachines ++
    [⟨.log, "part stored as product"⟩,
     ⟨.log, "number of products " ++ renderNat level⟩]

/-! ## Factory (SimpleFactory.py lines 189-235) -/

/-- `Factory.__init__` parameters (lines 191-200). -/
structure Factory where
  num_parts : Nat
  num_machines : Nat
  num_stations : Nat
  worktime : Nat
  t_inter : Nat
  remote_addr : Addr
  output_store_sz : Nat

/-- The part-creation loop of `Factory.setup` (lines 220-235): each
iteration first suspends for `t_inter` time units, then — if the count of
created parts is below `num_parts` — spawns `Part` number `part_id` and
increments the count, and otherwise returns, ending the process.  The
result lists the `(virtual time, part_id)` spawn events; `t` is the
virtual time at which the iteration starts. -/
def Factory.setupLoop (num_parts t_inter t part_id : Nat) : List (Nat × Nat) :=
  if _h : part_id < num_parts then
    (t + t_inter, part_id) ::
      Factory.setupLoop num_parts t_inter (t + t_inter) (part_id + 1)
  else []
termination_by num_parts - part_id
decreasing_by omega

/-- The spawn events of `Factory.setup` for a factory `f`: the loop is
entered at virtual time 0 with `part_id = 0` (machine and store
construction on lines 208-217 take no virtual time). -/
def Factory.setupSpawns (f : Factory) : List (Nat × Nat) :=
  Factory.setupLoop f.num_parts f.t_inter 0 0

/-! ## Parsing the wire format back

Modelled from the spec: the telemetry collector is explicitly outside
this repository ("it only implements the client side of that protocol"),
so the parse direction of the round-trip property in spec section 8 is
embedded from the wire-format description in spec section 6: one line
`<sequence:int>\t<JSON object>\n`, the JSON object having the fields
`time`, `machine`, `rail`, `part` (numbers) and `msg` (string), in that
order, as `json.dumps` lays them out.
-/

/-- Greedily consume decimal digits, accumulating their value. -/
def parseNatAux : Nat → List Char → Nat × List Char
  | acc, [] => (acc, [])
  | acc, c :: cs =>
    if c.isDigit then parseNatAux (10 * acc + (c.toNat - 48)) cs
    else (acc, c :: cs)

/-- Parse a decimal natural number (at least one digit). -/
def parseNat : List Char → Option (Nat × List Char)
  | [] => none
  | c :: cs => if c.isDigit then some (parseNatAux 0 (c :: cs)) else none

/-- Parse a decimal integer: an optional minus sign, then digits. -/
def parseInt : List Char → Option (Int × List Char)
  | [] => none
  | c :: cs =>
    if c = '-' then (parseNat cs).map (fun r => (-(r.1 : Int), r.2))
    else (parseNat (c :: cs)).map (fun r => ((r.1 : Int), r.2))

/-- Expect a literal character sequence and return the remainder. -/
def expectLit : List Char → List Char → Option (List Char)
  | [], s => some s
  | _ :: _, [] => none
  | e :: es, c :: cs => if c = e then expectLit es cs else none

/-- Body of a JSON string after the opening quote: read until the closing
quote, decoding backslash escapes of quote and backslash. -/
def parseJStringAux : List Char → Option (List Char × List Char)
  | [] => none
  | c :: cs =>
    if c = '"' then some ([], cs)
    else if c = '\\' then
      match cs with
      | [] => none
      | d :: ds =>
        if d = '"' ∨ d = '\\' then
          (parseJStringAux ds).map (fun r => (d :: r.1, r.2))
        else none
    else (parseJStringAux cs).map (fun r => (c :: r.1, r.2))

/-- Parse a JSON string literal (opening quote, body, closing quote). -/
def parseJString : List Char → Option (String × List Char)
  | [] => none
  | c :: cs =>
    if c = '"' then (parseJStringAux cs).map (fun r => (String.mk r.1, r.2))
    else none

/-- Whether a character list starts with a decimal digit (the condition
under which the greedy number parsers would keep consuming). -/
def headIsDigit : List Char → Bool
  | [] => false
  | c :: _ => c.isDigit

/-- Parse one full wire line into the `(sequence, record)` pair. -/
def parseWireChars (l : List Char) : Option (Nat × SensorMessage) :=
  (parseNat l).bind fun r0 =>
  (expectLit ['\t'] r0.2).bind fun r1 =>
  (expectLit litTime r1).bind fun r2 =>
  (parseInt r2).bind fun rt =>
  (expectLit litMachine rt.2).bind fun r3 =>
  (parseInt r3).bind fun rm =>
  (expectLit litRail rm.2).bind fun r4 =>
  (parseInt r4).bind fun rr =>
  (expectLit litPart rr.2).bind fun r5 =>
  (parseInt r5).bind fun rp =>
  (expectLit litMsg rp.2).bind fun r6 =>
  (parseJString r6).bind fun rs =>
  (expectLit litEnd rs.2).bind fun r7 =>
  match r7 with
  | [] => some (r0.1, { t := rt.1, mach_id := rm.1, rail_id := rr.1,
                        part_id := rp.1, msg_str := rs.1 })
  | _ :: _ => none

/-- Parse one full wire line, `String` version. -/
def parseWire (s : String) : Option (Nat × SensorMessage) := parseWireChars s.data

deriving instance DecidableEq for Except

/-! ## Helper lemmas about the proxy -/

/-- Every `send` call increments `seqnum` by exactly one, on every path. -/
theorem send_seqnum (p : SensorTCPProxy) (payload : String)
    (exn : Option SockExn) : (p.send payload exn).1.seqnum = p.seqnum + 1 := by
  cases exn with
  | none => rfl
  | some e => cases e <;> rfl

/-- After a sequence of `send` calls the counter advanced by their number. -/
theorem sendAll_seqnum (calls : List (String × Option SockExn)) :
    ∀ p : SensorTCPProxy,
      (p.sendAll calls).1.seqnum = p.seqnum + calls.length := by
  induction calls with
  | nil => intro p; rfl
  | cons c rest ih =>
    intro p
    show ((p.send c.1 c.2).1.sendAll rest).1.seqnum = p.seqnum + (rest.length + 1)
    rw [ih, send_seqnum]
    omega

/-- Every record delivered by a sequence of `send` calls carries a
sequence number strictly above the counter at the start. -/
theorem sendAll_delivered_gt (calls : List (String × Option SockExn)) :
    ∀ (p : SensorTCPProxy), ∀ r ∈ (p.sendAll calls).2, p.seqnum < r.1 := by
  induction calls with
  | nil =>
    intro p r h
    simp [SensorTCPProxy.sendAll] at h
  | cons c rest ih =>
    intro p r h
    simp only [SensorTCPProxy.sendAll, List.mem_append] at h
    rcases h with h | h
    · rcases hc : c.2 with _ | e
      · rw [hc] at h
        simp [SensorTCPProxy.send, Option.toList] at h
        rw [h]
        omega
      · rw [hc] at h
        cases e <;>
          simp [SensorTCPProxy.send, SensorTCPProxy.connect, matchesSocketError,
            Option.toList] at h
    · have hgt := ih (p.send c.1 c.2).1 r h
      have hs := send_seqnum p c.1 c.2
      omega

/-- The sequence numbers of the delivered records strictly increase. -/
theorem sendAll_delivered_chain (calls : List (String × Option SockExn)) :
    ∀ p : SensorTCPProxy,
      List.Chain' (· < ·) ((p.sendAll calls).2.map Prod.fst) := by
  induction calls with
  | nil => intro p; simp [SensorTCPProxy.sendAll]
  | cons c rest ih =>
    intro p
    simp only [SensorTCPProxy.sendAll, List.map_append]
    rcases hc : c.2 with _ | e
    · have h2 : (p.send c.1 none).2 = some (p.seqnum + 1, c.1) := rfl
      rw [h2]
      simp only [Option.toList, List.map_cons, List.map_nil, List.cons_append,
        List.nil_append]
      rw [List.chain'_cons']
      refine ⟨?_, ih (p.send c.1 none).1⟩
      intro b hb
      rcases List.mem_map.mp (List.mem_of_mem_head? hb) with ⟨r, hr, hrb⟩
      have hgt := sendAll_delivered_gt rest (p.send c.1 none).1 r hr
      have hs : (p.send c.1 none).1.seqnum = p.seqnum + 1 := rfl
      show p.seqnum + 1 < b
      omega
    · have h2 : (p.send c.1 (some e)).2 = none := by cases e <;> rfl
      rw [h2]
      simp only [Option.toList, List.map_nil, List.nil_append]
      exact ih (p.send c.1 (some e)).1


/-! ## C10 — sequence-number consumption and at-most-once delivery -/

/-- C10: every call to `SensorTCPProxy.send` increments the per-client
sequence number by exactly one before the write is attempted, whether or
not the write succeeds; a record whose write fails is never retransmitted
— its sequence number is consumed but its payload is never delivered —
and over any sequence of calls the delivered records carry strictly
increasing sequence numbers (no duplication, at most once per record). -/
theorem send_consumes_seq_at_most_once :
    ∀ (p : SensorTCPProxy) (payload : String) (exn : Option SockExn)
      (calls : List (String × Option SockExn)),
      (p.send payload exn).1.seqnum = p.seqnum + 1 ∧
      (p.send payload exn).2 =
        (if exn = none then some (p.seqnum + 1, payload) else none) ∧
      (p.sendAll calls).1.seqnum = p.seqnum + calls.length ∧
      List.Chain' (· < ·) ((p.sendAll calls).2.map Prod.fst) := by
  intro p payload exn calls
  refine ⟨send_seqnum p payload exn, ?_, sendAll_seqnum calls p,
    sendAll_delivered_chain calls p⟩
  cases exn with
  | none => rfl
  | some e => cases e <;> rfl

/-! ## C2 — the sequence counter is not reset by a reconnect -/

/-- C2 counterexample: start a fresh proxy, deliver one record, suffer one
write failure (which reconnects), then deliver again.  The reconnect did
happen (`connGen` went from 1 to 2), yet the first record sent on the new
connection instance carries sequence number 3, not 1: `connect` never
resets `seqnum`. -/
theorem reconnect_seq_not_reset_cex :
    let p0 : SensorTCPProxy :=
      { seqnum := 0, remote_addr := ("localhost", 9999),
        bind_addr := ("127.0.0.1", 0), connGen := 1 }
    let s1 := p0.send "a" none
    let s2 := s1.1.send "b" (some .sockError)
    let s3 := s2.1.send "c" none
    s2.1.connGen = 2 ∧ s3.2 = some (3, "c") ∧ ¬ s3.2 = some (1, "c") := by
  decide

/-- C2 (amended): after a write failure forces a reconnect, sending
resumes with the sequence counter carried over, not reset: the failed
send consumed `seqnum + 1`, and the first record sent on the new
connection instance carries `seqnum + 2`.  (Strict per-lifetime increase
of delivered sequence numbers is `sendAll_delivered_chain`.) -/
theorem reconnect_resumes_prior_seq :
    ∀ (p : SensorTCPProxy) (a b : String),
      (p.send a (some .sockError)).1.connGen = p.connGen + 1 ∧
      (p.send a (some .sockError)).1.seqnum = p.seqnum + 1 ∧
      ((p.send a (some .sockError)).1.send b none).2 = some (p.seqnum + 2, b) := by
  intro p a b
  refine ⟨rfl, rfl, ?_⟩
  show some (p.seqnum + 1 + 1, b) = some (p.seqnum + 2, b)
  rw [Nat.add_assoc]

/-! ## C4 — a socket timeout does trigger a reconnect (dead except clause) -/

/-- C4: the claim says a `socket.timeout` in `send` is only logged, with
no reconnection and the connection kept open.  In the code the clause
`except socket.error` on line 102 is tried first and catches
`socket.timeout` too (it is a subclass of `OSError`), so the socket is
closed and the proxy reconnects; the dedicated `except socket.timeout`
clause on line 107 — which only logs, and plainly records the intended
behaviour — is unreachable. -/
theorem timeout_triggers_reconnect :
    ∀ (p : SensorTCPProxy) (payload : String),
      matchesSocketError .sockTimeout = true ∧
      (p.send payload (some .sockTimeout)).1.connGen = p.connGen + 1 ∧
      (p.send payload (some .sockTimeout)).1.seqnum = p.seqnum + 1 ∧
      (p.send payload (some .sockTimeout)).2 = none := by
  intro p payload
  exact ⟨rfl, rfl, rfl, rfl⟩

/-! ## C5 — a reconnect reuses the bind address from construction -/

/-- C5 counterexample: after a write failure, the fresh connection is
bound to exactly the address stored at construction — it is NOT a
different address drawn from the pool, contradicting the claim's "not the
address originally bound at construction". -/
theorem reconnect_reuses_bind_addr_cex :
    let p0 : SensorTCPProxy :=
      { seqnum := 0, remote_addr := ("localhost", 9999),
        bind_addr := ("127.0.0.1", 5001), connGen := 1 }
    (p0.send "x" (some .sockError)).1.bind_addr = ("127.0.0.1", 5001) ∧
    ¬ (p0.send "x" (some .sockError)).1.bind_addr ≠ p0.bind_addr := by
  decide

/-- C5 (amended): on a write failure the client closes the socket and
immediately reconnects to the same remote endpoint, rebinding the SAME
local address it stored at construction (`connect` binds `self.bind_addr`);
the address pool is consulted only when the proxy is constructed. -/
theorem reconnect_same_bind_addr :
    ∀ (p : SensorTCPProxy) (payload : String) (ra a : Addr),
      (SensorTCPProxy.init ra (some a)).map (fun q => q.bind_addr) = .ok a ∧
      (p.send payload (some .sockError)).1.bind_addr = p.bind_addr ∧
      (p.send payload (some .sockError)).1.remote_addr = p.remote_addr ∧
      (p.send payload (some .sockError)).1.connGen = p.connGen + 1 := by
  intro p payload ra a
  exact ⟨rfl, rfl, rfl, rfl⟩

/-! ## C6 — the telemetry `time` field is the host clock, not `env.now` -/

/-- C6 counterexample: with the host clock reading 7 and the simulation
clock reading 5, the constructed record's `time` field is 7, not the
simulation clock value 5. -/
theorem sensormessage_time_cex :
    (SensorMessage.init ⟨7, 5⟩ 1 2 0 "machine working").t =
        (⟨7, 5⟩ : Clocks).timeClock ∧
    ¬ (SensorMessage.init ⟨7, 5⟩ 1 2 0 "machine working").t =
        (⟨7, 5⟩ : Clocks).envNow := by
  decide

/-- C6 (amended): the `time` field of every telemetry record equals the
`time.clock()` host-clock value at the moment the record is constructed;
whenever that differs from the simulation clock, the field differs from
the simulation clock value. -/
theorem sensormessage_time_is_host_clock :
    ∀ (clk : Clocks) (pid mid rid : Int) (s : String),
      (SensorMessage.init clk pid mid rid s).t = clk.timeClock ∧
      (clk.timeClock ≠ clk.envNow →
        (SensorMessage.init clk pid mid rid s).t ≠ clk.envNow) := by
  intro clk pid mid rid s
  exact ⟨rfl, fun h => h⟩

/-- Witness for `sensormessage_time_is_host_clock` at a concrete input. -/
theorem sensormessage_time_is_host_clock_witness :
    (SensorMessage.init ⟨7, 5⟩ 1 2 0 "machine working").t = (7 : Int) ∧
    (SensorMessage.init ⟨7, 5⟩ 1 2 0 "machine working").t ≠ (5 : Int) :=
  ⟨(sensormessage_time_is_host_clock ⟨7, 5⟩ 1 2 0 "machine working").1,
   (sensormessage_time_is_host_clock ⟨7, 5⟩ 1 2 0 "machine working").2
     (by decide)⟩

/-! ## C3 — the output store never raises an overflow error -/

/-- `triggerPut` never pushes the level beyond the capacity. -/
theorem triggerPut_le (capacity : Nat) :
    ∀ (q : List Nat) (level : Nat), level ≤ capacity →
      (triggerPut capacity level q).1 ≤ capacity := by
  intro q
  induction q with
  | nil => intro level h; exact h
  | cons a rest ih =>
    intro level h
    simp only [triggerPut]
    by_cases hfit : a ≤ capacity - level
    · rw [if_pos hfit]
      exact ih (level + a) (by omega)
    · rw [if_neg hfit]
      exact h

/-- C3 counterexample: storing into a full output store does not raise an
overflow error — the put returns normally, the request is queued
silently, and the level is unchanged, so the part's process continues. -/
theorem outputstore_overflow_no_error_cex :
    Container.put { capacity := 2, level := 2, put_queue := [] } 1 =
      .ok { capacity := 2, level := 2, put_queue := [1] } := by
  decide

/-- C3 (amended): a completed Part's `output_store.put(1)` increments the
level by exactly one when the store is below capacity (and no earlier put
is pending); when the store is already at capacity the put is queued
silently with the level unchanged — no error is raised; in every case the
level never exceeds the capacity. -/
theorem outputstore_put_behavior :
    ∀ c : Container, c.level ≤ c.capacity → (∀ a ∈ c.put_queue, 0 < a) →
      (c.put_queue = [] → c.level < c.capacity →
        c.put 1 = .ok { capacity := c.capacity, level := c.level + 1,
                        put_queue := [] }) ∧
      (c.level = c.capacity →
        c.put 1 = .ok { capacity := c.capacity, level := c.level,
                        put_queue := c.put_queue ++ [1] }) ∧
      (∀ d : Container, c.put 1 = .ok d → d.level ≤ d.capacity) := by
  intro c hinv hpos
  refine ⟨?_, ?_, ?_⟩
  · intro hq hlt
    rw [Container.put, if_neg (by decide : ¬(1 = 0)), hq]
    simp only [List.nil_append, triggerPut,
      if_pos (by omega : 1 ≤ c.capacity - c.level)]
  · intro hlev
    rw [Container.put, if_neg (by decide : ¬(1 = 0))]
    rcases hq : c.put_queue with _ | ⟨a, q⟩
    · simp only [List.nil_append, triggerPut,
        if_neg (by omega : ¬ 1 ≤ c.capacity - c.level)]
    · have ha : 0 < a := hpos a (by rw [hq]; exact List.mem_cons_self a q)
      simp only [List.cons_append, triggerPut,
        if_neg (by omega : ¬ a ≤ c.capacity - c.level)]
      rfl
  · intro d hd
    rw [Container.put, if_neg (by decide : ¬(1 = 0))] at hd
    simp only [Except.ok.injEq] at hd
    rw [← hd]
    exact triggerPut_le c.capacity (c.put_queue ++ [1]) c.level hinv

/-- Witness for `outputstore_put_behavior` at a concrete input. -/
theorem outputstore_put_behavior_witness :
    Container.put { capacity := 2, level := 1, put_queue := [] } 1 =
      .ok { capacity := 2, level := 2, put_queue := [] } :=
  (outputstore_put_behavior { capacity := 2, level := 1, put_queue := [] }
    (by decide) (by decide)).1 rfl (by decide)

/-! ## C8 — the setup loop creates exactly `num_parts` parts -/

/-- Unrolling of the setup loop: starting at time `t` with `part_id`
parts already created, the loop spawns the remaining `num_parts - part_id`
parts, one per `t_inter` tick. -/
theorem setupLoop_eq (t_inter : Nat) :
    ∀ (d num_parts part_id t : Nat), num_parts - part_id = d →
      Factory.setupLoop num_parts t_inter t part_id =
        (List.range d).map (fun j => (t + (j + 1) * t_inter, part_id + j)) := by
  intro d
  induction d with
  | zero =>
    intro np pid t h
    rw [Factory.setupLoop, dif_neg (by omega : ¬ pid < np)]
    simp
  | succ d ih =>
    intro np pid t h
    rw [Factory.setupLoop, dif_pos (by omega : pid < np)]
    rw [ih np (pid + 1) (t + t_inter) (by omega)]
    rw [List.range_succ_eq_map]
    simp only [List.map_cons, List.map_map]
    refine congrArg₂ List.cons ?_ ?_
    · simp
    · refine List.map_congr_left ?_
      intro j hj
      simp only [Function.comp_apply, Nat.succ_eq_add_one, Prod.mk.injEq]
      exact ⟨by ring, by omega⟩

/-- C8: the setup process suspends `t_inter` time units per iteration and
spawns a part only while the count is below `num_parts`, so it creates
exactly `num_parts` parts — the k-th (0-based) at virtual time
`(k+1)*t_inter` — and then the loop ends: the returned spawn list is
finite and complete, no further parts are ever created. -/
theorem setup_spawns_exactly_num_parts :
    ∀ f : Factory,
      f.setupSpawns =
        (List.range f.num_parts).map (fun k => ((k + 1) * f.t_inter, k)) ∧
      f.setupSpawns.length = f.num_parts := by
  intro f
  have h := setupLoop_eq f.t_inter f.num_parts f.num_parts 0 0 (by omega)
  rw [Factory.setupSpawns, h]
  constructor
  · refine List.map_congr_left ?_
    intro j hj
    simp
  · simp

/-! ## C9 — the final diagnostic goes to the log, not to telemetry -/

/-- Every telemetry emission of the machine loop is one of the three
machine-event messages. -/
theorem loopEmissions_telemetry (n : Nat) :
    ∀ e ∈ loopEmissions n, e.channel = OutChannel.telemetry →
      e.msg ∈ (["part entered machine", "machine working",
                "part in transit"] : List String) := by
  induction n with
  | zero =>
    intro e he
    simp [loopEmissions] at he
  | succ n ih =>
    intro e he hch
    rw [loopEmissions] at he
    rcases List.mem_append.mp he with h | h
    · fin_cases h <;> simp_all
    · exact ih e h hch

/-- C9 counterexample: with one machine and store level 1, the record
carrying the products diagnostic is never emitted on the telemetry
channel — it appears only as the final log entry. -/
theorem final_diag_not_telemetry_cex :
    (⟨OutChannel.telemetry, "number of products " ++ renderNat 1⟩ : Emission)
        ∉ partEmissions 1 1 ∧
    (partEmissions 1 1).getLast? =
      some ⟨OutChannel.log, "number of products " ++ renderNat 1⟩ := by
  decide

/-- C9 (amended): on reaching the stored state every Part process emits a
final diagnostic record carrying the current output-store level on the
LOG stream (`sfutils.loginfo`, line 186), not over the telemetry
connection: it is the last emission of the part, and the telemetry
channel only ever carries the three machine-event messages. -/
theorem final_diag_on_log_channel :
    ∀ (numMachines level : Nat),
      (partEmissions numMachines level).getLast? =
        some ⟨OutChannel.log, "number of products " ++ renderNat level⟩ ∧
      ∀ e ∈ partEmissions numMachines level,
        e.channel = OutChannel.telemetry →
          e.msg ∈ (["part entered machine", "machine working",
                    "part in transit"] : List String) := by
  intro n level
  constructor
  · rw [partEmissions,
      show loopEmissions n ++
          [(⟨OutChannel.log, "part stored as product"⟩ : Emission),
           ⟨OutChannel.log, "number of products " ++ renderNat level⟩] =
        (loopEmissions n ++ [⟨OutChannel.log, "part stored as product"⟩]) ++
          [⟨OutChannel.log, "number of products " ++ renderNat level⟩] from
        by simp]
    exact List.getLast?_concat _
  · intro e he hch
    rw [partEmissions] at he
    rcases List.mem_append.mp he with h | h
    · exact loopEmissions_telemetry n e h hch
    · fin_cases h <;> simp_all

/-- Witness for `final_diag_on_log_channel` at a concrete input. -/
theorem final_diag_on_log_channel_witness :
    (partEmissions 1 2).getLast? =
      some ⟨OutChannel.log, "number of products " ++ renderNat 2⟩ ∧
    "machine working" ∈ (["part entered machine", "machine working",
                          "part in transit"] : List String) :=
  ⟨(final_diag_on_log_channel 1 2).1,
   (final_diag_on_log_channel 1 2).2
     ⟨OutChannel.telemetry, "machine working"⟩ (by decide) rfl⟩

/-! ## C1 — the station slot is held through the rail phase -/

/-- A full machine visit acquires and then releases the station slot, so
its net effect on the held-slots accumulator is the identity. -/
theorem foldl_visitEvents (m : Nat) (s : List Nat) :
    (visitEvents m).foldl stationStep s = s := by
  simp [visitEvents, stationStep]

/-- In the machine loop of `Part`, at every point where the part requests
a rail it still holds the station slot of that machine (the accumulator
`s` is arbitrary: slots held before the loop are irrelevant). -/
theorem loopTrace_rail_request_aux :
    ∀ (ms : List Nat) (s : List Nat) (m : Nat) (pre post : List PartEvent),
      loopTrace ms = pre ++ PartEvent.requestRail m :: post →
      m ∈ pre.foldl stationStep s := by
  intro ms
  induction ms with
  | nil =>
    intro s m pre post h
    rw [loopTrace] at h
    exact absurd h (by simp)
  | cons m0 rest ih =>
    intro s m pre post h
    rw [loopTrace] at h
    simp only [visitEvents, List.cons_append, List.nil_append] at h
    rcases pre with _ | ⟨e, pre⟩
    · injection h with h1 _
      exact PartEvent.noConfusion h1
    injection h with h1 h
    subst h1
    rcases pre with _ | ⟨e, pre⟩
    · injection h with h1 _
      exact PartEvent.noConfusion h1
    injection h with h1 h
    subst h1
    rcases pre with _ | ⟨e, pre⟩
    · injection h with h1 _
      exact PartEvent.noConfusion h1
    injection h with h1 h
    subst h1
    rcases pre with _ | ⟨e, pre⟩
    · injection h with h1 _
      exact PartEvent.noConfusion h1
    injection h with h1 h
    subst h1
    rcases pre with _ | ⟨e, pre⟩
    · injection h with h1 _
      exact PartEvent.noConfusion h1
    injection h with h1 h
    subst h1
    rcases pre with _ | ⟨e, pre⟩
    · injection h with h1 _
      injection h1 with hm
      subst hm
      exact List.mem_cons_self m0 s
    injection h with h1 h
    subst h1
    rcases pre with _ | ⟨e, pre⟩
    · injection h with h1 _
      exact PartEvent.noConfusion h1
    injection h with h1 h
    subst h1
    rcases pre with _ | ⟨e, pre⟩
    · injection h with h1 _
      exact PartEvent.noConfusion h1
    injection h with h1 h
    subst h1
    rcases pre with _ | ⟨e, pre⟩
    · injection h with h1 _
      exact PartEvent.noConfusion h1
    injection h with h1 h
    subst h1
    rcases pre with _ | ⟨e, pre⟩
    · injection h with h1 _
      exact PartEvent.noConfusion h1
    injection h with h1 h
    subst h1
    show m ∈ pre.foldl stationStep ((m0 :: s).erase m0)
    rw [List.erase_cons_head]
    exact ih s m pre post h

/-- C1 counterexample: in the trace of a part visiting machine 0, the rail
request happens at position 5 while the station slot is released only at
position 9, and right after the part begins waiting for the rail it still
holds station slot 0 — contradicting "the station slot is released
immediately after the work delay, before the part begins waiting for that
machine's rail". -/
theorem station_release_after_rail_wait_cex :
    (partTrace [0]).indexOf (PartEvent.requestRail 0) = 5 ∧
    (partTrace [0]).indexOf (PartEvent.releaseStation 0) = 9 ∧
    0 ∈ stationsHeld ((partTrace [0]).take 6) := by
  decide

/-- C1 (amended): for every machine in the visiting order, the part still
holds that machine's station slot when it begins waiting for the
machine's rail (the slot is released only at the end of the machine
visit, after the rail transit): at every `requestRail` point of the part
trace, the machine's station is among the held slots. -/
theorem part_holds_station_at_rail_request :
    ∀ (ms : List Nat) (m : Nat) (pre post : List PartEvent),
      partTrace ms = pre ++ PartEvent.requestRail m :: post →
      m ∈ stationsHeld pre := by
  intro ms m pre post h
  rw [partTrace] at h
  rcases List.append_eq_append_iff.mp h with ⟨a, _, ha2⟩ | ⟨c, hc1, hc2⟩
  · exfalso
    rcases a with _ | ⟨x, a⟩
    · injection ha2 with h1 _
      exact PartEvent.noConfusion h1
    · injection ha2 with _ ha3
      rcases a with _ | ⟨y, a⟩
      · injection ha3 with h1 _
        exact PartEvent.noConfusion h1
      · injection ha3 with _ ha4
        simp at ha4
  · rcases c with _ | ⟨y, c⟩
    · rw [List.append_nil] at hc1
      injection hc2 with h1 _
      exact PartEvent.noConfusion h1
    · injection hc2 with h1 _
      subst h1
      exact loopTrace_rail_request_aux ms [] m pre c hc1

/-- Witness for `part_holds_station_at_rail_request` at a concrete input. -/
theorem part_holds_station_at_rail_request_witness :
    0 ∈ stationsHeld
      [PartEvent.requestStation 0, PartEvent.acquireStation 0,
       PartEvent.enterMachine 0, PartEvent.startWork 0,
       PartEvent.exitMachine 0] :=
  part_holds_station_at_rail_request [0] 0
    [PartEvent.requestStation 0, PartEvent.acquireStation 0,
     PartEvent.enterMachine 0, PartEvent.startWork 0, PartEvent.exitMachine 0]
    [PartEvent.acquireRail 0, PartEvent.startTransit 0, PartEvent.releaseRail 0,
     PartEvent.releaseStation 0, PartEvent.storeProduct,
     PartEvent.logDiagnostics]
    (by decide)

/-! ## C7 — wire-format round-trip -/

theorem someBind {α β : Type} (a : α) (f : α → Option β) :
    (some a).bind f = f a := rfl

/-- A digit character is a digit, decodes to its value, and is no minus. -/
theorem digitChar_spec (d : Nat) (hd : d < 10) :
    (digitChar d).isDigit = true ∧ (digitChar d).toNat - 48 = d ∧
      ¬ digitChar d = '-' := by
  interval_cases d <;> exact ⟨by decide, by decide, by decide⟩

/-- The decimal rendering of a natural number starts with a digit. -/
theorem renderNatAux_head :
    ∀ (fuel n : Nat), n < fuel →
      ∃ c cs, renderNatAux fuel n = c :: cs ∧ c.isDigit = true := by
  intro fuel
  induction fuel with
  | zero => intro n h; omega
  | succ fuel ih =>
    intro n h
    by_cases h10 : n < 10
    · refine ⟨digitChar n, [], ?_, (digitChar_spec n h10).1⟩
      simp only [renderNatAux, if_pos h10]
    · have hn : n / 10 < fuel := by omega
      rcases ih (n / 10) hn with ⟨c, cs, hrw, hdig⟩
      refine ⟨c, cs ++ [digitChar (n % 10)], ?_, hdig⟩
      simp only [renderNatAux, if_neg h10, hrw, List.cons_append]

/-- Consuming the rendered digits of `n` accumulates exactly `n`. -/
theorem parseNatAux_render :
    ∀ (fuel n acc : Nat) (rest : List Char), n < fuel →
      parseNatAux acc (renderNatAux fuel n ++ rest) =
        parseNatAux (acc * 10 ^ (renderNatAux fuel n).length + n) rest := by
  intro fuel
  induction fuel with
  | zero => intro n acc rest h; omega
  | succ fuel ih =>
    intro n acc rest h
    by_cases h10 : n < 10
    · rcases digitChar_spec n h10 with ⟨hdig, hval, _⟩
      simp only [renderNatAux, if_pos h10, List.singleton_append, List.length_singleton,
        pow_one]
      simp only [parseNatAux, hdig, if_true, hval]
      rw [Nat.mul_comm 10 acc]
    · have hn : n / 10 < fuel := by omega
      rcases digitChar_spec (n % 10) (by omega) with ⟨hdig, hval, _⟩
      simp only [renderNatAux, if_neg h10, List.append_assoc, List.singleton_append]
      rw [ih (n / 10) acc (digitChar (n % 10) :: rest) hn]
      simp only [parseNatAux, hdig, if_true, hval]
      congr 1
      simp only [List.length_append, List.length_singleton, pow_succ]
      rw [← Nat.mul_assoc]
      have harith : ∀ (X q r m : Nat), 10 * q + r = m →
          10 * (X + q) + r = X * 10 + m := by
        intro X q r m hh
        omega
      exact harith (acc * 10 ^ (renderNatAux fuel (n / 10)).length) (n / 10) (n % 10) n
        (Nat.div_add_mod n 10)

/-- The greedy digit reader stops at a non-digit. -/
theorem parseNatAux_stop (acc : Nat) (rest : List Char)
    (h : headIsDigit rest = false) : parseNatAux acc rest = (acc, rest) := by
  cases rest with
  | nil => rfl
  | cons c cs =>
    have hc : c.isDigit = false := h
    simp only [parseNatAux, hc, Bool.false_eq_true, if_false]

/-- Round-trip for natural numbers in the wire format. -/
theorem parseNat_render (n : Nat) (rest : List Char)
    (h : headIsDigit rest = false) :
    parseNat (renderNatChars n ++ rest) = some (n, rest) := by
  rcases renderNatAux_head (n + 1) n (by omega) with ⟨c, cs, hrw, hdig⟩
  have hpn : parseNatAux 0 (c :: (cs ++ rest)) = (n, rest) := by
    rw [← List.cons_append, ← hrw]
    rw [parseNatAux_render (n + 1) n 0 rest (by omega)]
    rw [Nat.zero_mul, Nat.zero_add]
    exact parseNatAux_stop n rest h
  rw [renderNatChars, hrw, List.cons_append, parseNat.eq_def]
  simp only [hdig, if_true]
  rw [hpn]

/-- Round-trip for integers in the wire format. -/
theorem parseInt_render (i : Int) (rest : List Char)
    (h : headIsDigit rest = false) :
    parseInt (renderIntChars i ++ rest) = some (i, rest) := by
  by_cases hneg : i < 0
  · rw [renderIntChars, if_pos hneg, List.cons_append, parseInt.eq_def]
    simp only [eq_self_iff_true, if_true]
    rw [parseNat_render (-i).toNat rest h]
    simp only [Option.map_some']
    have h2 : -(((-i).toNat : Int)) = i := by omega
    rw [h2]
  · rw [renderIntChars, if_neg hneg]
    rcases renderNatAux_head (i.toNat + 1) i.toNat (by omega) with ⟨c, cs, hrw, hdig⟩
    have hcne : ¬ c = '-' := by
      intro hc
      rw [hc] at hdig
      exact absurd hdig (by decide)
    rw [renderNatChars, hrw, List.cons_append, parseInt.eq_def]
    simp only [hcne, if_false, ite_false]
    rw [← List.cons_append, ← hrw, ← renderNatChars,
      parseNat_render i.toNat rest h]
    simp only [Option.map_some']
    have h2 : ((i.toNat : Int)) = i := by omega
    rw [h2]

/-- A literal prefix is consumed exactly. -/
theorem expectLit_self : ∀ (p rest : List Char),
    expectLit p (p ++ rest) = some rest := by
  intro p
  induction p with
  | nil => intro rest; rfl
  | cons c p ih =>
    intro rest
    rw [List.cons_append]
    simp only [expectLit, if_true]
    exact ih rest

/-- The tab separator is consumed exactly. -/
theorem expectTab (rest : List Char) :
    expectLit ['\t'] ('\t' :: rest) = some rest := rfl

/-- The string reader closes on an unescaped quote. -/
theorem parseJStringAux_quote (rest : List Char) :
    parseJStringAux ('"' :: rest) = some ([], rest) := by
  rw [parseJStringAux.eq_def]
  rfl

/-- The string reader decodes a backslash escape. -/
theorem parseJStringAux_esc (d : Char) (ds : List Char) (hd : d = '"' ∨ d = '\\') :
    parseJStringAux ('\\' :: d :: ds) =
      (parseJStringAux ds).map (fun r => (d :: r.1, r.2)) := by
  simp [parseJStringAux, hd]

/-- The string reader passes a plain character through. -/
theorem parseJStringAux_plain (c : Char) (l : List Char)
    (h1 : ¬ c = '\\') (h2 : ¬ c = '"') :
    parseJStringAux (c :: l) = (parseJStringAux l).map (fun r => (c :: r.1, r.2)) := by
  rw [parseJStringAux.eq_def]
  simp only [h1, h2, if_false, ite_false]

/-- Unescaping inverts escaping for every character list. -/
theorem parseJStringAux_escape :
    ∀ (l rest : List Char),
      parseJStringAux (escapeChars l ++ ('"' :: rest)) = some (l, rest) := by
  intro l
  induction l with
  | nil =>
    intro rest
    exact parseJStringAux_quote rest
  | cons c cs ih =>
    intro rest
    by_cases h1 : c = '\\'
    · subst h1
      show parseJStringAux ('\\' :: '\\' :: (escapeChars cs ++ ('"' :: rest))) =
        some ('\\' :: cs, rest)
      rw [parseJStringAux_esc '\\' _ (Or.inr rfl), ih rest]
      rfl
    · by_cases h2 : c = '"'
      · subst h2
        show parseJStringAux ('\\' :: '"' :: (escapeChars cs ++ ('"' :: rest))) =
          some ('"' :: cs, rest)
        rw [parseJStringAux_esc '"' _ (Or.inl rfl), ih rest]
        rfl
      · rw [escapeChars.eq_def]
        simp only [h1, h2, if_false, ite_false]
        rw [List.cons_append, parseJStringAux_plain c _ h1 h2, ih rest]
        rfl

/-- Round-trip for JSON string literals. -/
theorem parseJString_render (l rest : List Char) :
    parseJString ('"' :: (escapeChars l ++ ('"' :: rest))) =
      some (String.mk l, rest) := by
  show (parseJStringAux (escapeChars l ++ ('"' :: rest))).map
      (fun r => (String.mk r.1, r.2)) = some (String.mk l, rest)
  rw [parseJStringAux_escape l rest]
  rfl

/-- C7: serializing a telemetry record to the wire line
`<sequence>\t<JSON object>\n` exactly as `send`/`to_str` produce it and
parsing the line back yields the identical sequence number and the
identical `{time, machine, rail, part, msg}` tuple, for message strings
of printable ASCII (the domain on which `json.dumps` escapes exactly
backslash and quote). -/
theorem wire_roundtrip :
    ∀ (seq : Nat) (d : SensorMessage),
      (∀ c ∈ d.msg_str.data, 32 ≤ c.toNat ∧ c.toNat ≤ 126) →
      parseWire (wireBytes (seq, d.to_str)) = some (seq, d) := by
  intro seq d _h
  obtain ⟨t, mid, rid, pid, msg⟩ := d
  obtain ⟨ml⟩ := msg
  show parseWireChars
    (((renderNatChars seq ++ ['\t']) ++ jsonChars ⟨t, mid, rid, pid, ⟨ml⟩⟩) ++ ['\n']) =
    some (seq, ⟨t, mid, rid, pid, ⟨ml⟩⟩)
  simp only [jsonChars, jstringChars, List.append_assoc, List.cons_append,
    List.singleton_append, List.nil_append]
  simp only [parseWireChars]
  rw [parseNat_render seq _ (by rfl)]
  simp only [someBind]
  rw [expectTab]
  simp only [someBind]
  rw [expectLit_self]
  simp only [someBind]
  rw [parseInt_render t _ (by rfl)]
  simp only [someBind]
  rw [expectLit_self]
  simp only [someBind]
  rw [parseInt_render mid _ (by rfl)]
  simp only [someBind]
  rw [expectLit_self]
  simp only [someBind]
  rw [parseInt_render rid _ (by rfl)]
  simp only [someBind]
  rw [expectLit_self]
  simp only [someBind]
  rw [parseInt_render pid _ (by rfl)]
  simp only [someBind]
  rw [expectLit_self]
  simp only [someBind]
  rw [parseJString_render]
  simp only [someBind]
  rw [show expectLit litEnd ('\x7d' :: ('\n' :: [])) = some [] from rfl]
  simp only [someBind]

/-- Witness for `wire_roundtrip` at a concrete record. -/
theorem wire_roundtrip_witness :
    parseWire (wireBytes (3,
        ({ t := 12, mach_id := 2, rail_id := 0, part_id := 7,
           msg_str := "part in transit" } : SensorMessage).to_str)) =
      some (3, { t := 12, mach_id := 2, rail_id := 0, part_id := 7,
                 msg_str := "part in transit" }) :=
  wire_roundtrip 3
    { t := 12, mach_id := 2, rail_id := 0, part_id := 7,
      msg_str := "part in transit" } (by decide)
